import Mathlib

/-!
Verification of the meta-transformers in `sktime/transformers/compose.py`:
`RowwiseTransformer`, `Tabularizer` (alias `Tabulariser`), `ColumnConcatenator`
and the `ColumnTransformer` extension of the sklearn column transformer.

Pandas DataFrames are modelled as a structure holding column names, a row
index (row labels) and row-major cell data.  A nested table holds a whole
integer sequence in every cell; a tabular table holds a single integer per
cell.  The nested-data utilities (`tabularize`, `detabularize`,
`concat_nested_arrays`, `get_time_index`), the validation helpers
(`validate_X`, `check_is_fitted`, `check_is_fitted_in_transform`) and the
`BaseTransformer` fit marker live outside this file's source and are
modelled from the specification's description of their contracts.
-/

namespace SkC

/-- A pandas DataFrame: named columns, a row index (row labels), and
row-major data (one inner list per row, one entry per column). -/
structure DataFrame (α : Type) where
  columns : List String
  index : List Int
  data : List (List α)
deriving Repr, DecidableEq

deriving instance DecidableEq for Except

/-- A nested cell: one univariate time series, as its list of values. -/
abbrev Cell := List Int

/-- A nested table: every cell holds a whole sequence. -/
abbrev NestedDF := DataFrame Cell

/-- A tabular table: every cell holds a single primitive value. -/
abbrev TabularDF := DataFrame Int

/-- Errors raised synchronously by the transformers: input-shape
validation errors, not-fitted errors, and the DataFrame type error of
`ColumnConcatenator.transform`. -/
inductive TErr where
  | invalidInput
  | notFitted
  | typeError
deriving Repr, DecidableEq

/-- Modelled from the spec: `validate_X` (from
`sktime.utils.validation.supervised`, outside this file) validates that the
input is a properly-shaped table: one or more columns, rectangular data
rows matching the column count, and a row index matching the row count. -/
def validX {α : Type} (X : DataFrame α) : Bool :=
  decide (1 ≤ X.columns.length) &&
    X.data.all (fun r => r.length == X.columns.length) &&
    (X.index.length == X.data.length)

/-- Modelled from the spec: `get_time_index` (from
`sktime.utils.data_container`, outside this file) returns the time-index
descriptor of a nested table, read off the first cell: the positions
`0, …, L-1` of the first cell's sequence. -/
def get_time_index (X : NestedDF) : List Nat :=
  List.range ((X.data.headD []).headD []).length

/-- Column names produced by flattening: for each original column, one name
per time-index position of that column's first-row cell
(`column__0`, `column__1`, …). -/
def tabNames (cols : List String) (row : List Cell) : List String :=
  ((cols.zip row).map
    (fun p => (List.range p.2.length).map (fun i => p.1 ++ "__" ++ toString i))).flatten

/-- Modelled from the spec: `tabularize` (from
`sktime.utils.data_container`, outside this file) flattens each nested
cell's sequence into one primitive column per time-index position; a row of
the tabular result is the concatenation of that row's cell sequences,
column by column, and the row index is preserved. -/
def tabularize (X : NestedDF) : TabularDF :=
  { columns := tabNames X.columns (X.data.headD []),
    index := X.index,
    data := X.data.map List.flatten }

/-- Fuelled chunking worker: peels consecutive chunks of length `L` off the
list, spending one unit of fuel per chunk. -/
def chunkAux : Nat → Nat → List Int → List (List Int)
  | _, _, [] => []
  | 0, _, _ :: _ => []
  | fuel + 1, L, x :: rest =>
    (x :: rest).take L :: chunkAux fuel L ((x :: rest).drop L)

/-- Splits a list into consecutive chunks of length `L` (the last chunk may
be shorter); returns no chunks when `L = 0`.  `xs.length` fuel suffices
since every chunk consumes at least one element. -/
def chunkList (L : Nat) (xs : List Int) : List (List Int) :=
  if L = 0 then [] else chunkAux xs.length L xs

/-- Modelled from the spec, together with `detabRows` and `detabularize`
below: `detabularize` (from `sktime.utils.data_container`, outside this
file) regroups primitive columns back into per-cell sequences using the
recorded index and time index: each tabular row is split into consecutive
sequences whose length is the time index's length.  When no time index is
given the whole row becomes a single sequence, so that all original
columns' primitive values for a given row are concatenated into one
sequence placed in a single resulting column; when no index is given the
tabular table's own row index is kept.  Column names are regenerated (the
original names are not kept).  `detabTI` is the time index actually used,
defaulting to the positions of the first tabular row. -/
def detabTI (X : TabularDF) (time_index : Option (List Nat)) : List Nat :=
  time_index.getD (List.range (X.data.headD []).length)

/-- The regrouped rows of `detabularize`: each tabular row split into
consecutive sequences of the time index's length. -/
def detabRows (X : TabularDF) (time_index : Option (List Nat)) :
    List (List Cell) :=
  X.data.map (chunkList (detabTI X time_index).length)

/-- The reconstruction itself; see `detabTI` for the defaulted time
index. -/
def detabularize (X : TabularDF) (index : Option (List Int))
    (time_index : Option (List Nat)) : NestedDF :=
  { columns := (List.range ((detabRows X time_index).headD []).length).map
      (fun i => toString i),
    index := index.getD X.index,
    data := detabRows X time_index }

/-- Modelled from the spec, together with `concat_nested_arrays` below:
`concat_nested_arrays` (from `sktime.utils.data_container`, outside this
file) reassembles per-column lists of per-row transformed sequences into a
nested table with one cell per row and column; the row count `cnaRows` is
read off the first column, and fresh (positional) row and column labels
are generated. -/
def cnaRows (cols_t : List (List Cell)) : Nat :=
  (cols_t.headD []).length

/-- The reassembly itself; see `cnaRows` for the row count, read off the
first column. -/
def concat_nested_arrays (cols_t : List (List Cell)) : NestedDF :=
  { columns := (List.range cols_t.length).map (fun i => toString i),
    index := (List.range (cnaRows cols_t)).map (fun i => (i : Int)),
    data := (List.range (cnaRows cols_t)).map
      (fun r => cols_t.map (fun col => col.getD r [])) }

/-- State of a `RowwiseTransformer`: only the fitted marker `is_fitted_`
(the wrapped per-row transformer is stateless here, since `fit` never fits
it; it is passed to `transform` as a pure sequence-to-sequence function). -/
structure RowwiseState where
  is_fitted_ : Bool
deriving Repr, DecidableEq

/-- A fresh `RowwiseTransformer` (no fitted marker yet). -/
def RowwiseTransformer.init : RowwiseState :=
  { is_fitted_ := false }

/-- `RowwiseTransformer.fit`: validates X, performs no fitting of the
wrapped transformer, sets the `is_fitted_` marker and returns self. -/
def RowwiseTransformer.fit (s : RowwiseState) (X : NestedDF) :
    Except TErr RowwiseState :=
  if validX X then .ok { s with is_fitted_ := true }
  else .error .invalidInput

/-- The explicit double loop of `RowwiseTransformer.transform`: for every
column `c`, for every row of that column, the wrapped transformer's
`fit_transform` (modelled as the pure function `f`) is applied to the
row's sequence (the conversion of a sequence to a one-column DataFrame and
back is the identity on the values); the resulting per-column lists of
per-row results are reassembled by `concat_nested_arrays`. -/
def rowwiseCore (f : Cell → Cell) (X : NestedDF) : NestedDF :=
  concat_nested_arrays
    ((List.range X.columns.length).map
      (fun c => X.data.map (fun row => f (row.getD c []))))

/-- The cell `Xt.iloc[0, 0]` inspected by the post-processing step of
`RowwiseTransformer.transform`. -/
def firstCell (X : NestedDF) : Cell :=
  (X.data.headD []).headD []

/-- Whether every cell of a nested table is a length-1 sequence (the
condition the specification states for the post-processing step). -/
def allCellsLenOne (X : NestedDF) : Bool :=
  X.data.all (fun r => r.all (fun c => c.length == 1))

/-- Result of `RowwiseTransformer.transform`: either a nested table, or a
tabular table when the post-processing step tabularized the result. -/
inductive TransResult where
  | nested (Xt : NestedDF)
  | tabular (Xt : TabularDF)
deriving Repr, DecidableEq

/-- `RowwiseTransformer.transform`: validates X, checks the fitted marker,
applies the per-row transform to every row of every column, reassembles,
and tabularizes the result when the first transformed cell
(`Xt.iloc[0, 0]`) is a length-1 sequence. -/
def RowwiseTransformer.transform (f : Cell → Cell) (s : RowwiseState)
    (X : NestedDF) : Except TErr TransResult :=
  if !validX X then .error .invalidInput
  else if !s.is_fitted_ then .error .notFitted
  else
    let Xt := rowwiseCore f X
    if (firstCell Xt).length == 1 then .ok (.tabular (tabularize Xt))
    else .ok (.nested Xt)

/-- State of a `Tabularizer`: the `check_input` flag set at construction,
and the metadata `_columns`, `_index`, `_time_index` recorded by
`transform` (absent, i.e. `none`, before the first `transform`). -/
structure TabularizerState where
  check_input : Bool
  _columns : Option (List String)
  _index : Option (List Int)
  _time_index : Option (List Nat)
deriving Repr, DecidableEq

/-- `Tabularizer.__init__(check_input)`: a fresh instance with no recorded
metadata. -/
def Tabularizer.init (check_input : Bool) : TabularizerState :=
  { check_input := check_input, _columns := none, _index := none,
    _time_index := none }

/-- `Tabularizer.transform`: optionally validates X, records X's columns,
row index and time index as instance state, and returns the tabularized
table. -/
def Tabularizer.transform (s : TabularizerState) (X : NestedDF) :
    Except TErr (TabularizerState × TabularDF) :=
  if s.check_input && !validX X then .error .invalidInput
  else
    let s2 : TabularizerState :=
      { s with
        _columns := some X.columns
        _index := some X.index
        _time_index := some (get_time_index X) }
    .ok (s2, tabularize X)

/-- `Tabularizer.inverse_transform`: raises a not-fitted error when the
recorded `_time_index` metadata is absent (modelled from the spec:
`check_is_fitted_in_transform`, outside this file, raises `NotFittedError`
when the named attribute is missing); otherwise optionally validates X and
reconstructs a nested table with the recorded index and time index. -/
def Tabularizer.inverse_transform (s : TabularizerState) (X : TabularDF) :
    Except TErr NestedDF :=
  match s._time_index with
  | none => .error .notFitted
  | some ti =>
    if s.check_input && !validX X then .error .invalidInput
    else .ok (detabularize X s._index (some ti))

/-- The round trip `inverse_transform(transform(X))` on one
`Tabularizer` instance. -/
def Tabularizer.roundTrip (s : TabularizerState) (X : NestedDF) :
    Except TErr NestedDF :=
  match Tabularizer.transform s X with
  | .error e => .error e
  | .ok (s2, Xt) => Tabularizer.inverse_transform s2 Xt

/-- A Python value passed to `ColumnConcatenator.transform`: either a
pandas DataFrame (a nested table) or some other object. -/
inductive PyInput where
  | df (X : NestedDF)
  | other
deriving Repr, DecidableEq

/-- Whether a `PyInput` is a pandas DataFrame. -/
def PyInput.isDF : PyInput → Bool
  | .df _ => true
  | .other => false

/-- `ColumnConcatenator.transform`: checks the fitted marker (set by the
trivial inherited `fit`, modelled from the spec), raises a type error when
X is not a pandas DataFrame, and returns `detabularize(tabularize(X))`. -/
def ColumnConcatenator.transform (is_fitted : Bool) (X : PyInput) :
    Except TErr NestedDF :=
  if !is_fitted then .error .notFitted
  else
    match X with
    | .other => .error .typeError
    | .df X => .ok (detabularize (tabularize X) none none)

/-- Fitted state of the sktime `ColumnTransformer` relevant to `_hstack`:
the inherited `sparse_output_` flag (set by the sklearn fitting logic) and
the `preserve_dataframe` flag stored by `__init__`. -/
structure CTState where
  sparse_output_ : Bool
  preserve_dataframe : Bool
deriving Repr, DecidableEq

/-- One sub-transformer output handed to `_hstack`: a scipy sparse matrix,
a pandas DataFrame (labeled columns), a pandas Series (one labeled
column), or a plain numpy 2D array, each carried as its columns. -/
inductive SubResult where
  | spMat (cols : List (List Int))
  | dfRes (cols : List (String × List Int))
  | series (name : String) (vals : List Int)
  | arr (cols : List (List Int))
deriving Repr, DecidableEq

/-- Whether a sub-result's runtime type is `pd.Series` or `pd.DataFrame`
(the membership test on `types` in `_hstack`). -/
def SubResult.isPandas : SubResult → Bool
  | .dfRes _ => true
  | .series _ _ => true
  | _ => false

/-- The columns of a sub-result, without labels (as stacked by
`np.hstack` or `sparse.hstack`). -/
def SubResult.plainCols : SubResult → List (List Int)
  | .spMat cs => cs
  | .dfRes cs => cs.map Prod.snd
  | .series _ v => [v]
  | .arr cs => cs

/-- The columns of a sub-result with their labels (as concatenated by
`pd.concat(..., axis="columns")`, which preserves column labels; unlabeled
inputs get an empty label). -/
def SubResult.labeledCols : SubResult → List (String × List Int)
  | .spMat cs => cs.map (fun c => ("", c))
  | .dfRes cs => cs
  | .series n v => [(n, v)]
  | .arr cs => cs.map (fun c => ("", c))

/-- Result of `_hstack`: a sparse matrix, a labeled DataFrame, or a plain
dense array, each carried as its columns. -/
inductive Stacked where
  | sparse (cols : List (List Int))
  | frame (cols : List (String × List Int))
  | dense (cols : List (List Int))
deriving Repr, DecidableEq

/-- `ColumnTransformer._hstack`: sparse stacking when `sparse_output_` is
set; otherwise labeled concatenation when `preserve_dataframe` is enabled
and some sub-result is a pandas Series or DataFrame; otherwise
`np.hstack`. -/
def ColumnTransformer._hstack (s : CTState) (Xs : List SubResult) : Stacked :=
  if s.sparse_output_ then .sparse (Xs.map SubResult.plainCols).flatten
  else if s.preserve_dataframe && Xs.any SubResult.isPandas then
    .frame (Xs.map SubResult.labeledCols).flatten
  else .dense (Xs.map SubResult.plainCols).flatten

/-- The runtime shape of one fitted sub-transformer's output as seen by
`_validate_output`: a numpy array of some dimensionality (`ndim`), a
pandas Series, a pandas DataFrame, or some other object without an `ndim`
attribute (`getattr(Xs, 'ndim', 0)` yields 0). -/
inductive TOut where
  | arr (ndim : Nat)
  | series
  | dfOut
  | other
deriving Repr, DecidableEq

/-- The `ndim` attribute read by `_validate_output` (`0` when absent). -/
def TOut.ndim : TOut → Nat
  | .arr n => n
  | .series => 1
  | .dfOut => 2
  | .other => 0

/-- Whether one output passes `_validate_output`: two-dimensional, or a
pandas Series. -/
def TOut.ok2d (t : TOut) : Bool :=
  t.ndim == 2 || (t matches .series)

/-- The error message of `_validate_output`, naming the offending
sub-transformer. -/
def outErrMsg (name : String) : String :=
  "The output of the " ++ name ++
    " transformer should be 2D (scipy matrix, array, or pandas DataFrame)."

/-- The loop of `_validate_output` over `zip(result, names)`: the first
output that is neither 2D nor a pandas Series raises a `ValueError` naming
its sub-transformer. -/
def validateOutputAux : List (TOut × String) → Except String Unit
  | [] => .ok ()
  | (x, n) :: rest =>
    if x.ok2d then validateOutputAux rest
    else .error (outErrMsg n)

/-- `ColumnTransformer._validate_output`: checks each fitted
sub-transformer's output against its name (names come from
`self._iter(fitted=True, replace_strings=True)`, here passed in). -/
def ColumnTransformer._validate_output (result : List TOut)
    (names : List String) : Except String Unit :=
  validateOutputAux (result.zip names)

/-- A concrete two-column nested table with cells of common length 2,
used in concrete witnesses. -/
def exTable : NestedDF :=
  { columns := ["a", "b"], index := [10, 11],
    data := [[[1, 2], [3, 4]], [[5, 6], [7, 8]]] }

/-- A concrete one-column, one-row nested table holding the sequence
`[1, 2, 3]`. -/
def exTable1 : NestedDF :=
  { columns := ["a"], index := [0], data := [[[1, 2, 3]]] }

/-- A concrete one-column table whose first row holds the length-1
sequence `[5]` and whose second row holds `[5, 6]`. -/
def exMixed : NestedDF :=
  { columns := ["a"], index := [0, 1], data := [[[5]], [[5, 6]]] }

/-! Helper lemmas about the embedded definitions. -/

/-- Unfolding of the validity check into its three conjuncts. -/
theorem validX_iff {α : Type} (X : DataFrame α) :
    validX X = true ↔
      1 ≤ X.columns.length ∧ (∀ r ∈ X.data, r.length = X.columns.length) ∧
        X.index.length = X.data.length := by
  simp [validX, List.all_eq_true, and_assoc]

/-- `getD` through a map over a range, inside the range. -/
theorem getD_map_range {α : Type} (n : Nat) (g : Nat → α) (i : Nat)
    (hi : i < n) (d : α) : ((List.range n).map g).getD i d = g i := by
  rw [List.getD_eq_getElem?_getD, List.getElem?_map, List.getElem?_range hi]
  rfl

/-- `getD` through a map, inside the list's bounds. -/
theorem getD_map {α β : Type} (f : α → β) (l : List α) (i : Nat)
    (hi : i < l.length) (d : β) (d2 : α) :
    (l.map f).getD i d = f (l.getD i d2) := by
  rw [List.getD_eq_getElem?_getD, List.getElem?_map,
    List.getElem?_eq_getElem hi, List.getD_eq_getElem?_getD,
    List.getElem?_eq_getElem hi]
  rfl

/-- Sum of a map that is constant on the list. -/
theorem sum_map_const {α : Type} (l : List α) (f : α → Nat) (L : Nat)
    (h : ∀ x ∈ l, f x = L) : (l.map f).sum = l.length * L := by
  induction l with
  | nil => simp
  | cons x l ih =>
    simp only [List.map_cons, List.sum_cons, List.length_cons,
      h x (by simp), ih (fun y hy => h y (by simp [hy])), Nat.succ_mul]
    omega

/-- Length of the flattening of a list of constant-length lists. -/
theorem flatten_length_const (cs : List Cell) (L : Nat)
    (h : ∀ c ∈ cs, c.length = L) : cs.flatten.length = cs.length * L := by
  rw [List.length_flatten, sum_map_const cs List.length L h]

/-- Chunking with enough fuel undoes flattening of constant-length
chunks. -/
theorem chunkAux_flatten (L : Nat) (hL : 0 < L) (cs : List (List Int)) :
    ∀ fuel : Nat, cs.flatten.length ≤ fuel → (∀ c ∈ cs, c.length = L) →
      chunkAux fuel L cs.flatten = cs := by
  induction cs with
  | nil => intro fuel _ _; cases fuel <;> rfl
  | cons c cs ih =>
    intro fuel hfuel h
    have hcL : c.length = L := h c (by simp)
    have hflat : (c :: cs).flatten = c ++ cs.flatten := List.flatten_cons ..
    have hlen : (c :: cs).flatten.length = L + cs.flatten.length := by
      rw [hflat, List.length_append, hcL]
    obtain ⟨y, ys, hc⟩ : ∃ y ys, c = y :: ys := by
      cases c with
      | nil => simp at hcL; omega
      | cons y ys => exact ⟨y, ys, rfl⟩
    obtain ⟨fuel', rfl⟩ : ∃ fuel', fuel = fuel' + 1 := by
      cases fuel with
      | zero => omega
      | succ n => exact ⟨n, rfl⟩
    rw [hflat, hc, List.cons_append]
    show (y :: (ys ++ cs.flatten)).take L ::
        chunkAux fuel' L ((y :: (ys ++ cs.flatten)).drop L) = _
    rw [← List.cons_append]
    have htake : ((y :: ys) ++ cs.flatten).take L = y :: ys := by
      rw [← hc, ← hcL, List.take_left]
    have hdrop : ((y :: ys) ++ cs.flatten).drop L = cs.flatten := by
      rw [← hc, ← hcL, List.drop_left]
    rw [htake, hdrop, ih fuel' (by omega) (fun x hx => h x (by simp [hx]))]

/-- Chunking undoes flattening of constant-length chunks. -/
theorem chunkList_flatten (L : Nat) (hL : 0 < L) (cs : List (List Int))
    (h : ∀ c ∈ cs, c.length = L) : chunkList L cs.flatten = cs := by
  rw [chunkList, if_neg (by omega)]
  exact chunkAux_flatten L hL cs cs.flatten.length (le_refl _) h

/-- A list of exactly the chunk length is one single chunk. -/
theorem chunkList_exact (L : Nat) (hL : 0 < L) (xs : List Int)
    (h : xs.length = L) : chunkList L xs = [xs] := by
  have := chunkList_flatten L hL [xs] (by simpa using h)
  simpa using this

/-- Length of the flattened column names. -/
theorem tabNames_length (cols : List String) (row : List Cell) (L : Nat)
    (hlen : row.length = cols.length) (h : ∀ c ∈ row, c.length = L) :
    (tabNames cols row).length = cols.length * L := by
  rw [tabNames, List.length_flatten, List.map_map]
  have hmap : ((cols.zip row).map
      (List.length ∘ fun p : String × Cell =>
        (List.range p.2.length).map (fun i => p.1 ++ "__" ++ toString i))) =
      (cols.zip row).map (fun p => p.2.length) := by
    refine List.map_congr_left (fun p _ => ?_)
    simp
  rw [hmap, sum_map_const _ _ L
    (fun p hp => h p.2 (List.of_mem_zip hp).2), List.length_zip, hlen]
  simp

/-- The recorded time index of a uniform nested table is `0, …, L-1`. -/
theorem get_time_index_eq (X : NestedDF) (L : Nat) (hval : validX X = true)
    (hne : X.data ≠ []) (hcells : ∀ row ∈ X.data, ∀ c ∈ row, c.length = L) :
    get_time_index X = List.range L := by
  obtain ⟨r0, rs, hdata⟩ := List.exists_cons_of_ne_nil hne
  rw [validX_iff] at hval
  obtain ⟨h1, h2, _⟩ := hval
  have hr0 : r0.length = X.columns.length := h2 r0 (by rw [hdata]; simp)
  obtain ⟨c0, cs, hr⟩ : ∃ c0 cs, r0 = c0 :: cs := by
    cases r0 with
    | nil => simp at hr0; omega
    | cons c0 cs => exact ⟨c0, cs, rfl⟩
  have hc0 : c0.length = L :=
    hcells r0 (by rw [hdata]; simp) c0 (by rw [hr]; simp)
  simp [get_time_index, hdata, hr, hc0]

/-- Tabularizing a valid uniform nested table yields a valid table. -/
theorem validX_tabularize (X : NestedDF) (L : Nat) (hL : 0 < L)
    (hval : validX X = true) (hne : X.data ≠ [])
    (hcells : ∀ row ∈ X.data, ∀ c ∈ row, c.length = L) :
    validX (tabularize X) = true := by
  rw [validX_iff] at hval
  obtain ⟨h1, h2, h3⟩ := hval
  obtain ⟨r0, rs, hdata⟩ := List.exists_cons_of_ne_nil hne
  have hr0mem : r0 ∈ X.data := by rw [hdata]; simp
  have hnames : (tabNames X.columns (X.data.headD [])).length =
      X.columns.length * L := by
    rw [hdata]
    exact tabNames_length X.columns r0 L (h2 r0 hr0mem) (hcells r0 hr0mem)
  rw [validX_iff]
  refine ⟨?_, ?_, ?_⟩
  · show 1 ≤ (tabNames X.columns (X.data.headD [])).length
    rw [hnames]
    exact Nat.one_le_iff_ne_zero.mpr (Nat.mul_ne_zero (by omega) (by omega))
  · intro r hr
    show r.length = (tabNames X.columns (X.data.headD [])).length
    rw [hnames]
    obtain ⟨row, hrow, rfl⟩ := List.mem_map.mp hr
    rw [flatten_length_const row L (hcells row hrow), h2 row hrow]
  · show X.index.length = (X.data.map List.flatten).length
    rw [List.length_map]
    exact h3

/-- Detabularizing with the recorded index and time index undoes
tabularizing, for a valid nested table all of whose cells have the common
time index `0, …, L-1`. -/
theorem detabularize_tabularize (X : NestedDF) (L : Nat) (hL : 0 < L)
    (hval : validX X = true) (hne : X.data ≠ [])
    (hcells : ∀ row ∈ X.data, ∀ c ∈ row, c.length = L) :
    detabularize (tabularize X) (some X.index) (some (List.range L)) =
      { columns := (List.range X.columns.length).map (fun i => toString i),
        index := X.index,
        data := X.data } := by
  rw [validX_iff] at hval
  obtain ⟨h1, h2, _⟩ := hval
  obtain ⟨r0, rs, hdata⟩ := List.exists_cons_of_ne_nil hne
  have hrows : detabRows (tabularize X) (some (List.range L)) = X.data := by
    simp only [detabRows, detabTI, Option.getD_some, List.length_range]
    rw [show (tabularize X).data = X.data.map List.flatten from rfl,
      List.map_map]
    calc X.data.map (chunkList L ∘ List.flatten)
        = X.data.map id :=
          List.map_congr_left
            (fun r hr => chunkList_flatten L hL r (hcells r hr))
      _ = X.data := List.map_id X.data
  have hhead : ((detabRows (tabularize X) (some (List.range L))).headD
      []).length = X.columns.length := by
    rw [hrows, hdata]
    exact h2 r0 (by rw [hdata]; simp)
  unfold detabularize
  rw [DataFrame.mk.injEq]
  exact ⟨by rw [hhead], rfl, hrows⟩

/-- Detabularizing a tabularized table with no recorded metadata collapses
every row into one single-cell column, for rows of a common positive total
length. -/
theorem detabularize_tabularize_default (X : NestedDF) (t : Nat)
    (ht : 0 < t) (hne : X.data ≠ [])
    (hrowlen : ∀ row ∈ X.data, row.flatten.length = t) :
    detabularize (tabularize X) none none =
      { columns := ["0"], index := X.index,
        data := X.data.map (fun row => [row.flatten]) } := by
  obtain ⟨r0, rs, hdata⟩ := List.exists_cons_of_ne_nil hne
  have hti : detabTI (tabularize X) none = List.range t := by
    simp only [detabTI, Option.getD_none]
    rw [show (tabularize X).data = X.data.map List.flatten from rfl, hdata]
    simp [hrowlen r0 (by rw [hdata]; simp)]
  have hrows : detabRows (tabularize X) none =
      X.data.map (fun row => [row.flatten]) := by
    simp only [detabRows, hti, List.length_range]
    rw [show (tabularize X).data = X.data.map List.flatten from rfl,
      List.map_map]
    refine List.map_congr_left (fun row hrow => ?_)
    exact chunkList_exact t ht row.flatten (hrowlen row hrow)
  unfold detabularize
  rw [DataFrame.mk.injEq, hrows, hdata]
  refine ⟨?_, rfl, rfl⟩
  simp only [List.map_cons, List.headD_cons, List.length_cons,
    List.length_nil]
  rfl

/-- Normal form of the double loop of `RowwiseTransformer.transform`: the
reassembled table has one cell per row and column of X, holding the
transform of X's corresponding cell. -/
theorem rowwiseCore_eq (f : Cell → Cell) (X : NestedDF)
    (h1 : 1 ≤ X.columns.length) :
    rowwiseCore f X =
      { columns := (List.range X.columns.length).map (fun i => toString i),
        index := (List.range X.data.length).map (fun i => (i : Int)),
        data := (List.range X.data.length).map
          (fun r => (List.range X.columns.length).map
            (fun c => f ((X.data.getD r []).getD c []))) } := by
  obtain ⟨m, hm⟩ : ∃ m, X.columns.length = m + 1 :=
    ⟨X.columns.length - 1, by omega⟩
  have hnr : cnaRows ((List.range X.columns.length).map
      (fun c => X.data.map (fun row => f (row.getD c [])))) =
      X.data.length := by
    rw [cnaRows, hm, List.range_succ_eq_map, List.map_cons]
    simp
  unfold rowwiseCore concat_nested_arrays
  rw [DataFrame.mk.injEq, hnr]
  refine ⟨by simp, rfl, ?_⟩
  refine List.map_congr_left (fun r hr => ?_)
  have hrlt : r < X.data.length := List.mem_range.mp hr
  rw [List.map_map]
  refine List.map_congr_left (fun c hc => ?_)
  show (X.data.map (fun row => f (row.getD c []))).getD r [] =
    f ((X.data.getD r []).getD c [])
  rw [getD_map (fun row => f (row.getD c [])) X.data r hrlt [] []]

/-- A completing call of `Tabularizer.transform` records X's metadata and
returns the tabularized table. -/
theorem transform_ok (s : TabularizerState) (X : NestedDF)
    (h : s.check_input = false ∨ validX X = true) :
    Tabularizer.transform s X =
      Except.ok ({ check_input := s.check_input,
                   _columns := some X.columns,
                   _index := some X.index,
                   _time_index := some (get_time_index X) },
                 tabularize X) := by
  rcases h with h | h <;> simp [Tabularizer.transform, h]

/-- The validation loop succeeds exactly when every output passes. -/
theorem validateOutputAux_ok_iff (l : List (TOut × String)) :
    validateOutputAux l = .ok () ↔ ∀ p ∈ l, p.1.ok2d = true := by
  induction l with
  | nil => simp [validateOutputAux]
  | cons p l ih =>
    rw [validateOutputAux]
    by_cases hp : p.1.ok2d = true
    · simp [hp, ih]
    · simp only [Bool.not_eq_true] at hp
      simp [hp]

/-- The validation loop names the first offending output. -/
theorem validateOutputAux_error (pre : List (TOut × String)) (x : TOut)
    (n : String) (post : List (TOut × String))
    (hpre : ∀ p ∈ pre, p.1.ok2d = true) (hx : x.ok2d = false) :
    validateOutputAux (pre ++ (x, n) :: post) = .error (outErrMsg n) := by
  induction pre with
  | nil => simp [validateOutputAux, hx]
  | cons p pre ih =>
    rw [List.cons_append, validateOutputAux, if_pos (hpre p (by simp))]
    exact ih (fun q hq => hpre q (by simp [hq]))

/-- Zipping distributes over the decomposition used to point at the
offending output. -/
theorem zip_append_cons {α β : Type} (pre : List α) (x : α) (post : List α)
    (npre : List β) (n : β) (npost : List β)
    (hlen : pre.length = npre.length) :
    (pre ++ x :: post).zip (npre ++ n :: npost) =
      pre.zip npre ++ (x, n) :: post.zip npost := by
  induction pre generalizing npre with
  | nil =>
    cases npre with
    | nil => rfl
    | cons _ _ => simp at hlen
  | cons p pre ih =>
    cases npre with
    | nil => simp at hlen
    | cons q npre =>
      simp only [List.cons_append, List.zip_cons_cons]
      rw [ih npre (by simpa using hlen)]

/-- Membership in a zip of equal-length lists, from the left list. -/
theorem mem_zip_of_mem_left {α β : Type} (l1 : List α) (l2 : List β)
    (hlen : l1.length = l2.length) (x : α) (hx : x ∈ l1) :
    ∃ y, (x, y) ∈ l1.zip l2 := by
  induction l1 generalizing l2 with
  | nil => simp at hx
  | cons a l1 ih =>
    cases l2 with
    | nil => simp at hlen
    | cons b l2 =>
      rcases List.mem_cons.mp hx with rfl | hx
      · exact ⟨b, by simp⟩
      · obtain ⟨y, hy⟩ := ih l2 (by simpa using hlen) hx
        exact ⟨y, by simp [hy]⟩

/-! Claim theorems. -/

/-- C1, counterexample: with the identity per-row transformer on `exMixed`
(first transformed cell `[5]` of length 1, second transformed cell
`[5, 6]` of length 2), not every transformed cell has length 1, yet
`RowwiseTransformer.transform` tabularizes the result: the post-processing
step inspects only the first cell `Xt.iloc[0, 0]`, so the decision does
not hold exactly when all cells have length 1. -/
theorem rowwise_tabularize_not_all_counterexample :
    allCellsLenOne (rowwiseCore id exMixed) = false ∧
    RowwiseTransformer.transform id { is_fitted_ := true } exMixed =
      .ok (.tabular (tabularize (rowwiseCore id exMixed))) :=
  ⟨by rfl, by rfl⟩

/-- C1 (amended): for every valid nested table X and fitted state,
`RowwiseTransformer.transform` returns the tabularized table exactly when
the first transformed cell (`Xt.iloc[0, 0]`) is a length-1 sequence, and
otherwise returns the reassembled nested table unchanged by the
post-processing step. -/
theorem rowwise_tabularize_first_cell (f : Cell → Cell) (s : RowwiseState)
    (X : NestedDF) (hval : validX X = true) (hfit : s.is_fitted_ = true) :
    RowwiseTransformer.transform f s X =
      .ok (if (firstCell (rowwiseCore f X)).length == 1
        then .tabular (tabularize (rowwiseCore f X))
        else .nested (rowwiseCore f X)) := by
  simp only [RowwiseTransformer.transform, hval, hfit, Bool.not_true,
    Bool.false_eq_true, if_false]
  split <;> simp [*]

/-- Witness for the amended C1 theorem: concrete fitted transform of a
single cell `[1, 2]`, whose transformed first cell has length 2, so the
result stays nested. -/
theorem rowwise_tabularize_first_cell_witness :
    validX { columns := ["a"], index := [0], data := [[[1, 2]]] } = true ∧
    RowwiseTransformer.transform id { is_fitted_ := true }
        { columns := ["a"], index := [0], data := [[[1, 2]]] } =
      .ok (.nested (rowwiseCore id
        { columns := ["a"], index := [0], data := [[[1, 2]]] })) := by
  refine ⟨by decide, ?_⟩
  rw [rowwise_tabularize_first_cell id { is_fitted_ := true }
    { columns := ["a"], index := [0], data := [[[1, 2]]] } (by decide) rfl]
  rfl

/-- C2: on one `Tabularizer` instance, `inverse_transform(transform(X))`
reproduces X's cell values, row index and column count, for every valid
nested table whose cells all share the common time index `0, …, L-1`
(column names are regenerated: the code never keeps them). -/
theorem tabularizer_roundtrip (s : TabularizerState) (X : NestedDF)
    (L : Nat) (hL : 0 < L) (hval : validX X = true) (hne : X.data ≠ [])
    (hcells : ∀ row ∈ X.data, ∀ c ∈ row, c.length = L) :
    Tabularizer.roundTrip s X =
      .ok { columns := (List.range X.columns.length).map
              (fun i => toString i),
            index := X.index, data := X.data } := by
  have hti := get_time_index_eq X L hval hne hcells
  have hvt := validX_tabularize X L hL hval hne hcells
  rw [Tabularizer.roundTrip, transform_ok s X (Or.inr hval)]
  show Tabularizer.inverse_transform
      { check_input := s.check_input, _columns := some X.columns,
        _index := some X.index, _time_index := some (get_time_index X) }
      (tabularize X) = _
  simp only [Tabularizer.inverse_transform, hvt, Bool.not_true,
    Bool.and_false, Bool.false_eq_true, if_false]
  rw [hti, detabularize_tabularize X L hL hval hne hcells]

/-- Witness for C2: the round trip on `exTable` (common time index of
length 2) reproduces the data and row index. -/
theorem tabularizer_roundtrip_witness :
    ((0 : Nat) < 2 ∧ validX exTable = true ∧ exTable.data ≠ [] ∧
      ∀ row ∈ exTable.data, ∀ c ∈ row, c.length = 2) ∧
    Tabularizer.roundTrip (Tabularizer.init true) exTable =
      .ok { columns := ["0", "1"], index := [10, 11],
            data := [[[1, 2], [3, 4]], [[5, 6], [7, 8]]] } :=
  ⟨⟨by decide, by decide, by decide, by decide⟩,
   tabularizer_roundtrip (Tabularizer.init true) exTable 2 (by decide)
     (by decide) (by decide) (by decide)⟩

/-- C3: a fitted `ColumnConcatenator.transform` returns a nested table
with the same row count and exactly one column, each resulting row being
the concatenation of that row's per-column sequences, whose length is the
sum of the row's per-column sequence lengths, for tables whose rows share
a common positive total length. -/
theorem columnconcat_single_column (X : NestedDF) (t : Nat) (ht : 0 < t)
    (hne : X.data ≠ [])
    (hrowlen : ∀ row ∈ X.data, row.flatten.length = t) :
    ∃ Xt, ColumnConcatenator.transform true (.df X) = .ok Xt ∧
      Xt.columns.length = 1 ∧ Xt.index = X.index ∧
      Xt.data.length = X.data.length ∧
      Xt.data = X.data.map (fun row => [row.flatten]) ∧
      ∀ row ∈ X.data, row.flatten.length = (row.map List.length).sum := by
  refine ⟨{ columns := ["0"], index := X.index,
            data := X.data.map (fun row => [row.flatten]) },
    ?_, rfl, rfl, by simp, rfl, ?_⟩
  · show Except.ok (detabularize (tabularize X) none none) = _
    rw [detabularize_tabularize_default X t ht hne hrowlen]
  · intro row _
    rw [List.length_flatten]

/-- Witness for C3: concatenating `exTable`'s two columns (row totals 4)
into one column. -/
theorem columnconcat_single_column_witness :
    ((0 : Nat) < 4 ∧ exTable.data ≠ [] ∧
      ∀ row ∈ exTable.data, row.flatten.length = 4) ∧
    (∃ Xt, ColumnConcatenator.transform true (.df exTable) = .ok Xt ∧
      Xt.columns.length = 1 ∧ Xt.index = exTable.index ∧
      Xt.data.length = exTable.data.length ∧
      Xt.data = exTable.data.map (fun row => [row.flatten]) ∧
      ∀ row ∈ exTable.data,
        row.flatten.length = (row.map List.length).sum) :=
  ⟨⟨by decide, by decide, by decide⟩,
   columnconcat_single_column exTable 4 (by decide) (by decide) (by decide)⟩

/-- C4: the combining rule of `ColumnTransformer._hstack`: sparse stacking
when the fitted sparse-output flag is set; else labeled concatenation
(preserving the sub-results' column labels) when `preserve_dataframe` is
enabled and at least one sub-result is a pandas Series or DataFrame; else
plain dense stacking. -/
theorem columntransformer_hstack_rule (s : CTState) (Xs : List SubResult) :
    (s.sparse_output_ = true →
      ColumnTransformer._hstack s Xs =
        .sparse (Xs.map SubResult.plainCols).flatten) ∧
    (s.sparse_output_ = false → s.preserve_dataframe = true →
      Xs.any SubResult.isPandas = true →
      ColumnTransformer._hstack s Xs =
        .frame (Xs.map SubResult.labeledCols).flatten) ∧
    (s.sparse_output_ = false →
      (s.preserve_dataframe && Xs.any SubResult.isPandas) = false →
      ColumnTransformer._hstack s Xs =
        .dense (Xs.map SubResult.plainCols).flatten) := by
  refine ⟨fun h1 => ?_, fun h1 h2 h3 => ?_, fun h1 h2 => ?_⟩
  · simp [ColumnTransformer._hstack, h1]
  · simp [ColumnTransformer._hstack, h1, h2, h3]
  · simp [ColumnTransformer._hstack, h1, h2]

/-- Witness for C4: one pandas Series sub-result with
`preserve_dataframe` on and sparse output off is concatenated as labeled
columns. -/
theorem columntransformer_hstack_rule_witness :
    ((⟨false, true⟩ : CTState).sparse_output_ = false ∧
      (⟨false, true⟩ : CTState).preserve_dataframe = true ∧
      [SubResult.series "s" [1, 2]].any SubResult.isPandas = true) ∧
    ColumnTransformer._hstack ⟨false, true⟩ [SubResult.series "s" [1, 2]] =
      .frame ([SubResult.series "s" [1, 2]].map
        SubResult.labeledCols).flatten :=
  ⟨⟨rfl, rfl, rfl⟩,
   (columntransformer_hstack_rule ⟨false, true⟩
     [SubResult.series "s" [1, 2]]).2.1 rfl rfl rfl⟩

/-- C5: `ColumnTransformer._validate_output` succeeds exactly when every
sub-transformer output is two-dimensional or a pandas Series, and names
the first offending sub-transformer in its error (in particular a
one-dimensional unlabeled array fails). -/
theorem columntransformer_validate_output_iff (result : List TOut)
    (names : List String) (hlen : result.length = names.length) :
    (ColumnTransformer._validate_output result names = .ok () ↔
      ∀ x ∈ result, x.ok2d = true) ∧
    (∀ pre x post npre n npost, result = pre ++ x :: post →
      names = npre ++ n :: npost → pre.length = npre.length →
      (∀ y ∈ pre, y.ok2d = true) → x.ok2d = false →
      ColumnTransformer._validate_output result names =
        .error (outErrMsg n)) := by
  constructor
  · rw [ColumnTransformer._validate_output, validateOutputAux_ok_iff]
    constructor
    · intro h x hx
      obtain ⟨y, hy⟩ := mem_zip_of_mem_left result names hlen x hx
      exact h (x, y) hy
    · intro h p hp
      exact h p.1 (List.of_mem_zip hp).1
  · intro pre x post npre n npost hres hnam hplen hpre hx
    rw [ColumnTransformer._validate_output, hres, hnam,
      zip_append_cons pre x post npre n npost hplen]
    exact validateOutputAux_error (pre.zip npre) x n (post.zip npost)
      (fun p hp => hpre p.1 (List.of_mem_zip hp).1) hx

/-- Witness for C5: a one-dimensional unlabeled array output fails with
the error naming its sub-transformer. -/
theorem columntransformer_validate_output_witness :
    ([TOut.arr 1].length = ["t1"].length ∧ (TOut.arr 1).ok2d = false) ∧
    ColumnTransformer._validate_output [TOut.arr 1] ["t1"] =
      .error (outErrMsg "t1") :=
  ⟨⟨rfl, rfl⟩,
   (columntransformer_validate_output_iff [TOut.arr 1] ["t1"] rfl).2
     [] (TOut.arr 1) [] [] "t1" [] rfl rfl rfl (by simp) rfl⟩

/-- C6: on every valid nested table, the reassembled result of the
per-row application has the same row and column counts as X and holds, at
each row and column, the transform of X's corresponding cell; in
particular, after `fit`, the identity per-row transformer on the
single-cell table `exTable1` holding `[1, 2, 3]` returns a nested table
with one cell equal to `[1, 2, 3]`. -/
theorem rowwise_applies_per_cell (f : Cell → Cell) (X : NestedDF)
    (hval : validX X = true) :
    (rowwiseCore f X).data.length = X.data.length ∧
    (rowwiseCore f X).columns.length = X.columns.length ∧
    (∀ r c : Nat, r < X.data.length → c < X.columns.length →
      ((rowwiseCore f X).data.getD r []).getD c [] =
        f ((X.data.getD r []).getD c [])) ∧
    RowwiseTransformer.transform id { is_fitted_ := true } exTable1 =
      .ok (.nested { columns := ["0"], index := [0],
                     data := [[[1, 2, 3]]] }) := by
  have h1 : 1 ≤ X.columns.length := ((validX_iff X).mp hval).1
  rw [rowwiseCore_eq f X h1]
  refine ⟨by simp, by simp, ?_, by rfl⟩
  intro r c hr hc
  rw [getD_map_range _ _ r hr, getD_map_range _ _ c hc]

/-- Witness for C6: the per-cell description at a concrete two-column
table and the doubling transformer. -/
theorem rowwise_applies_per_cell_witness :
    validX exTable = true ∧
    (rowwiseCore (fun c => c ++ c) exTable).data.length =
      exTable.data.length :=
  ⟨by decide, (rowwise_applies_per_cell (fun c => c ++ c) exTable
    (by decide)).1⟩

/-- C7: `Tabularizer.inverse_transform` raises the not-fitted error
exactly on the absence of the recorded time-index metadata: it raises it
whenever `_time_index` is absent (in particular on a fresh instance, on
which no `transform` has run), and never raises it when the metadata is
present. -/
theorem tabularizer_inverse_requires_fit (s : TabularizerState)
    (X : TabularDF) :
    (s._time_index = none →
      Tabularizer.inverse_transform s X = .error .notFitted) ∧
    (∀ t, s._time_index = some t →
      Tabularizer.inverse_transform s X ≠ .error .notFitted) ∧
    (∀ c, Tabularizer.inverse_transform (Tabularizer.init c) X =
      .error .notFitted) := by
  refine ⟨fun h => ?_, fun t h => ?_, fun c => rfl⟩
  · rw [Tabularizer.inverse_transform, h]
  · rw [Tabularizer.inverse_transform, h]
    by_cases hc : (s.check_input && !validX X) = true
    · simp [hc]
    · simp [hc]

/-- Witness for C7: a fresh `Tabularizer` rejects `inverse_transform`
with the not-fitted error. -/
theorem tabularizer_inverse_requires_fit_witness :
    (Tabularizer.init true)._time_index = none ∧
    Tabularizer.inverse_transform (Tabularizer.init true)
        { columns := ["a__0"], index := [0], data := [[1]] } =
      .error .notFitted :=
  ⟨rfl, (tabularizer_inverse_requires_fit (Tabularizer.init true)
    { columns := ["a__0"], index := [0], data := [[1]] }).1 rfl⟩

/-- C8: `RowwiseTransformer.transform` raises the validation error on
every invalidly shaped X, and the not-fitted error on valid X before
`fit`; `RowwiseTransformer.fit` validates X, fits nothing (the state holds
only the marker), marks the instance fitted and returns it. -/
theorem rowwise_fit_transform_errors (f : Cell → Cell) (s : RowwiseState)
    (X : NestedDF) :
    (validX X = false →
      RowwiseTransformer.transform f s X = .error .invalidInput) ∧
    (validX X = true → s.is_fitted_ = false →
      RowwiseTransformer.transform f s X = .error .notFitted) ∧
    (validX X = true →
      RowwiseTransformer.fit s X = .ok { is_fitted_ := true }) ∧
    (validX X = false →
      RowwiseTransformer.fit s X = .error .invalidInput) := by
    refine ⟨fun h => ?_, fun h1 h2 => ?_, fun h => ?_, fun h => ?_⟩
    · simp [RowwiseTransformer.transform, h]
    · simp [RowwiseTransformer.transform, h1, h2]
    · simp [RowwiseTransformer.fit, h]
    · simp [RowwiseTransformer.fit, h]

/-- Witness for C8: the not-fitted error on a valid table before `fit`,
and the fit marker set by `fit`. -/
theorem rowwise_fit_transform_errors_witness :
    validX exTable1 = true ∧
    RowwiseTransformer.transform id { is_fitted_ := false } exTable1 =
      .error .notFitted ∧
    RowwiseTransformer.fit { is_fitted_ := false } exTable1 =
      .ok { is_fitted_ := true } :=
  ⟨by decide,
   (rowwise_fit_transform_errors id { is_fitted_ := false } exTable1).2.1
     (by decide) rfl,
   (rowwise_fit_transform_errors id { is_fitted_ := false } exTable1).2.2.1
     (by decide)⟩

/-- C9: `ColumnConcatenator.transform` raises the not-fitted error
whenever the fit marker is unset, and, once fitted, raises the type error
exactly when X is not a pandas DataFrame. -/
theorem columnconcat_fit_and_type_errors (is_fitted : Bool) (X : PyInput) :
    (is_fitted = false →
      ColumnConcatenator.transform is_fitted X = .error .notFitted) ∧
    (is_fitted = true →
      (ColumnConcatenator.transform is_fitted X = .error .typeError ↔
        X.isDF = false)) := by
  constructor
  · intro h
    rw [h]
    rfl
  · intro h
    rw [h]
    cases X with
    | df Y => simp [ColumnConcatenator.transform, PyInput.isDF]
    | other => simp [ColumnConcatenator.transform, PyInput.isDF]

/-- Witness for C9: a fitted `ColumnConcatenator` rejects a non-DataFrame
input with the type error. -/
theorem columnconcat_fit_and_type_errors_witness :
    PyInput.other.isDF = false ∧
    ColumnConcatenator.transform true PyInput.other = .error .typeError :=
  ⟨rfl, ((columnconcat_fit_and_type_errors true PyInput.other).2 rfl).mpr
    rfl⟩

/-- C10: every completing call of `Tabularizer.transform` (in particular
every call when `check_input` is disabled, and every call on a validating
X) overwrites the recorded metadata so that the stored columns, row index
and time index equal exactly those of X, and changes nothing else: the
post-state is exactly the old `check_input` with the fresh metadata, and
the returned table is the tabularization of X. -/
theorem tabularizer_transform_records (s : TabularizerState) (X : NestedDF)
    (h : s.check_input = false ∨ validX X = true) :
    Tabularizer.transform s X =
      Except.ok ({ check_input := s.check_input,
                   _columns := some X.columns,
                   _index := some X.index,
                   _time_index := some (get_time_index X) },
                 tabularize X) :=
  transform_ok s X h

/-- Witness for C10: a transform with `check_input` disabled records the
metadata of the input table. -/
theorem tabularizer_transform_records_witness :
    ((Tabularizer.init false).check_input = false ∨
      validX exTable = true) ∧
    Tabularizer.transform (Tabularizer.init false) exTable =
      Except.ok ({ check_input := false,
                   _columns := some ["a", "b"],
                   _index := some [10, 11],
                   _time_index := some [0, 1] },
                 tabularize exTable) :=
  ⟨Or.inl rfl,
   tabularizer_transform_records (Tabularizer.init false) exTable
     (Or.inl rfl)⟩

end SkC
